import Mathlib

/-!
Verification of the RCA ETL pipeline (audit-trail extraction, timeline
merging, run-context diffing, dimensional loading, watermark bookkeeping).

Shallow embedding conventions:
* timestamps (Python `datetime`) are naturals (a non-null SQL `datetime`
  column is always truthy in Python, so only nullable columns become
  `Option Nat`);
* UUIDs are naturals; user identifiers are strings;
* the database session is replaced by the table contents passed in as
  lists, and a SQL `WHERE`/`ORDER BY` becomes `List.filter` / a stable
  sort by key (Python's `list.sort` and SQL `ORDER BY` with the stated
  key; `list.sort` is stable, which the stable insertion sort below
  reproduces exactly);
* `datetime.now()` values are passed in as an explicit `now` argument.
-/

namespace RcaEtl

/-- Python truthiness of an optional integer scalar (`if not result: ...`
on the result of `scalar_one_or_none()`): `None` and `0` are falsy. -/
def truthyKey : Option Nat → Bool
  | none => false
  | some k => k != 0

/-- Python truthiness of an optional list parameter (`if scenario_ids:`):
`None` and the empty list are falsy. -/
def truthyList : Option (List α) → Bool
  | none => false
  | some l => !l.isEmpty

/-- SQL `col >= since` on a nullable column: `NULL` compares false. -/
def optGe : Option Nat → Nat → Bool
  | none, _ => false
  | some t, c => c ≤ t

/-! Stable sort by a natural-valued key.

`list.sort(key=...)` in Python is a stable sort; the insertion sort below
(insert after all elements with key `≤` the new key) computes the same
list as any stable sort by the key. -/

/-- Insert `x` behind every element whose key is `≤ key x` (stable). -/
def insertByKey (key : α → Nat) (x : α) : List α → List α
  | [] => [x]
  | y :: ys => if key x < key y then x :: y :: ys else y :: insertByKey key x ys

/-- Stable sort of `l` ascending by `key` (model of `l.sort(key=...)`). -/
def sortByKey (key : α → Nat) (l : List α) : List α :=
  l.foldl (fun acc x => insertByKey key x acc) []

theorem mem_insertByKey (key : α → Nat) (x z : α) (l : List α) :
    z ∈ insertByKey key x l ↔ z = x ∨ z ∈ l := by
  induction l with
  | nil => simp [insertByKey]
  | cons y ys ih =>
    by_cases h : key x < key y
    · simp [insertByKey, h]
    · simp only [insertByKey, if_neg h, List.mem_cons, ih]
      tauto

theorem sorted_insertByKey (key : α → Nat) (x : α) (l : List α)
    (h : l.Pairwise (fun a b => key a ≤ key b)) :
    (insertByKey key x l).Pairwise (fun a b => key a ≤ key b) := by
  induction l with
  | nil => simp [insertByKey]
  | cons y ys ih =>
    rcases List.pairwise_cons.mp h with ⟨hy, hys⟩
    by_cases hlt : key x < key y
    · rw [insertByKey, if_pos hlt]
      refine List.pairwise_cons.mpr ⟨?_, h⟩
      intro z hz
      rcases List.mem_cons.mp hz with rfl | hz
      · exact Nat.le_of_lt hlt
      · exact Nat.le_trans (Nat.le_of_lt hlt) (hy z hz)
    · rw [insertByKey, if_neg hlt]
      refine List.pairwise_cons.mpr ⟨?_, ih hys⟩
      intro z hz
      rcases (mem_insertByKey key x z ys).mp hz with rfl | hz
      · exact Nat.le_of_not_lt hlt
      · exact hy z hz

theorem sortByKey_sorted (key : α → Nat) (l : List α) :
    (sortByKey key l).Pairwise (fun a b => key a ≤ key b) := by
  suffices h : ∀ (l acc : List α), acc.Pairwise (fun a b => key a ≤ key b) →
      (l.foldl (fun acc x => insertByKey key x acc) acc).Pairwise
        (fun a b => key a ≤ key b) from h l [] (by simp)
  intro l
  induction l with
  | nil => intro acc hacc; simpa using hacc
  | cons x xs ih =>
    intro acc hacc
    exact ih _ (sorted_insertByKey key x acc hacc)

theorem mem_sortByKey (key : α → Nat) (z : α) (l : List α) :
    z ∈ sortByKey key l ↔ z ∈ l := by
  suffices h : ∀ (l acc : List α),
      z ∈ l.foldl (fun acc x => insertByKey key x acc) acc ↔ z ∈ acc ∨ z ∈ l by
    simpa using h l []
  intro l
  induction l with
  | nil => intro acc; simp
  | cons x xs ih =>
    intro acc
    simp only [List.foldl_cons, ih, mem_insertByKey, List.mem_cons]
    tauto

theorem filter_insertByKey (key : α → Nat) (t : Nat) (x : α) (l : List α)
    (h : l.Pairwise (fun a b => key a ≤ key b)) :
    (insertByKey key x l).filter (fun z => key z == t) =
      l.filter (fun z => key z == t) ++ (if key x == t then [x] else []) := by
  induction l with
  | nil => simp only [insertByKey, List.filter_nil, List.nil_append]; split <;> simp_all
  | cons y ys ih =>
    rcases List.pairwise_cons.mp h with ⟨hy, hys⟩
    by_cases hlt : key x < key y
    · rw [insertByKey, if_pos hlt]
      by_cases hx : key x = t
      · have hnone : ∀ z ∈ y :: ys, ¬ (key z == t) = true := by
          intro z hz
          have hyz : key y ≤ key z := by
            rcases List.mem_cons.mp hz with rfl | hz
            · exact Nat.le_refl _
            · exact hy z hz
          have : t < key z := by omega
          simp; omega
        rw [List.filter_cons_of_pos (by simpa using hx),
            List.filter_eq_nil_iff.mpr hnone]
        simp [hx]
      · rw [if_neg (by simpa using hx), List.filter_cons_of_neg (by simpa using hx)]
        simp
    · rw [insertByKey, if_neg hlt]
      by_cases hyt : key y = t
      · rw [List.filter_cons_of_pos (by simpa using hyt),
            List.filter_cons_of_pos (by simpa using hyt), ih hys, List.cons_append]
      · rw [List.filter_cons_of_neg (by simpa using hyt),
            List.filter_cons_of_neg (by simpa using hyt), ih hys]

/-- Stability of `sortByKey`: elements sharing one key value keep their
relative input order (their key-filtered subsequence is unchanged). -/
theorem sortByKey_filter_key (key : α → Nat) (t : Nat) (l : List α) :
    (sortByKey key l).filter (fun z => key z == t) =
      l.filter (fun z => key z == t) := by
  suffices h : ∀ (l acc : List α), acc.Pairwise (fun a b => key a ≤ key b) →
      (l.foldl (fun acc x => insertByKey key x acc) acc).filter (fun z => key z == t) =
        acc.filter (fun z => key z == t) ++ l.filter (fun z => key z == t) by
    simpa using h l [] (by simp)
  intro l
  induction l with
  | nil => intro acc hacc; simp
  | cons x xs ih =>
    intro acc hacc
    rw [List.foldl_cons, ih _ (sorted_insertByKey key x acc hacc),
        filter_insertByKey key t x acc hacc]
    by_cases hx : key x = t
    · rw [if_pos (by simpa using hx), List.filter_cons_of_pos (by simpa using hx)]
      simp
    · rw [if_neg (by simpa using hx), List.filter_cons_of_neg (by simpa using hx)]
      simp

/-! Source tables (`src/models/source.py`).

Only the columns the ETL core reads are carried. Non-nullable columns
(`created_at`, `updated_at`, ...) are plain values; nullable lifecycle
columns are `Option`. -/

/-- A row of `fc_scenario`. -/
structure FcScenario where
  id : Nat
  status : String
  scenario_display_name : String
  is_starter : Bool
  scenario_start_year : Nat
  scenario_end_year : Nat
  created_at : Nat
  created_by : String
  created_req_id : Nat
  updated_at : Nat
  updated_by : String
  updated_req_id : Nat
  submitted_at : Option Nat
  submitted_by : Option String
  submitted_req_id : Option Nat
  locked_at : Option Nat
  locked_by : Option String
  locked_req_id : Option Nat
  withdraw_at : Option Nat
  withdraw_by : Option String
  withdraw_req_id : Option Nat
  delete_at : Option Nat
  delete_by : Option String
  delete_req_id : Option Nat
deriving DecidableEq

/-- A row of `fc_scenario_node_data` (append-only input edits). -/
structure FcScenarioNodeData where
  id : Nat
  model_node_id : Nat
  scenario_id : Nat
  input_hash : String
  input_validated : Bool
  created_by : String
  created_at : Nat
  created_req_id : Nat
deriving DecidableEq

/-- A row of `fc_scenario_run`. -/
structure FcScenarioRun where
  id : Nat
  scenario_id : Nat
  run_status : String
  run_at : Nat
  run_by : String
  run_req_id : Nat
  run_complete_at : Option Nat
  fail_reason : Option String
deriving DecidableEq

/-! State-Transition Reconstructor
(`extract_scenario_state_changes`, `src/etl/extractors/audit_trail.py`) -/

/-- One yielded state-change record. -/
structure StateChangeRecord where
  scenario_id : Nat
  previous_status : Option String
  new_status : String
  transition_type : String
  changed_by : Option String
  changed_at : Nat
  correlation_id : Option Nat
  change_reason : Option String
deriving DecidableEq

/-- The `WHERE` clause of the state-change query for a non-null `since`:
any of the six audit timestamps at or after the cutoff (scenario-level,
not record-level). -/
def scenarioTouchedSince (s : FcScenario) (c : Nat) : Bool :=
  decide (c ≤ s.created_at) || optGe s.submitted_at c || optGe s.locked_at c ||
    optGe s.withdraw_at c || optGe s.delete_at c || decide (c ≤ s.updated_at)

/-- The scenario query shared shape: optional `since` OR-filter, then the
optional `id IN (...)` filter (a truthiness check in Python: an empty id
list disables the filter). -/
def scenarioQuery (sel : FcScenario → Nat → Bool) (since : Option Nat)
    (scenario_ids : Option (List Nat)) (tbl : List FcScenario) : List FcScenario :=
  let t1 := match since with
    | none => tbl
    | some c => tbl.filter (fun s => sel s c)
  if truthyList scenario_ids then t1.filter (fun s => (scenario_ids.getD []).contains s.id)
  else t1

/-- The unsorted transition list synthesized for one scenario: one record
per present lifecycle timestamp (`created_at` is non-nullable, hence
always truthy, so the created transition is always emitted). -/
def scenarioTransitionsRaw (s : FcScenario) : List StateChangeRecord :=
  [⟨s.id, none, "draft", "created", some s.created_by, s.created_at,
      some s.created_req_id, none⟩]
  ++ (match s.submitted_at with
      | some t => [⟨s.id, some "draft", "submitted", "submitted", s.submitted_by, t,
          s.submitted_req_id, none⟩]
      | none => [])
  ++ (match s.locked_at with
      | some t => [⟨s.id, some "submitted", "locked", "locked", s.locked_by, t,
          s.locked_req_id, none⟩]
      | none => [])
  ++ (match s.withdraw_at with
      | some t => [⟨s.id, some (if s.status != "withdrawn" then s.status else "submitted"),
          "withdrawn", "withdrawn", s.withdraw_by, t, s.withdraw_req_id, none⟩]
      | none => [])
  ++ (match s.delete_at with
      | some t => [⟨s.id, some (if s.status != "deleted" then s.status else "draft"),
          "deleted", "deleted", s.delete_by, t, s.delete_req_id, none⟩]
      | none => [])

/-- Model of `extract_scenario_state_changes`: filter scenarios, then per scenario
sort its synthesized transitions by timestamp and yield them. -/
def extract_scenario_state_changes (tbl : List FcScenario) (since : Option Nat)
    (scenario_ids : Option (List Nat)) : List StateChangeRecord :=
  (scenarioQuery scenarioTouchedSince since scenario_ids tbl).flatMap
    (fun s => sortByKey (·.changed_at) (scenarioTransitionsRaw s))

/-- A scenario created at time 1 and submitted at time 10, current status
"submitted"; all other lifecycle timestamps absent. -/
def exC1 : FcScenario :=
  ⟨1, "submitted", "s1", false, 2024, 2026, 1, "alice", 11, 10, "alice", 12,
    some 10, some "alice", some 13, none, none, none, none, none, none,
    none, none, none⟩

/-- Claim C1: the `since` filter of `extract_scenario_state_changes` is
scenario-level (any of six timestamps at or after the cutoff), after which
ALL transitions of a matching scenario are yielded. With cutoff 5, a
scenario created at 1 and submitted at 10 passes the filter and the
extractor emits its created transition timestamped 1 < 5, contradicting
the claim that every emitted record is at or after the cutoff. -/
theorem extract_state_changes_emits_before_cutoff :
    (extract_scenario_state_changes [exC1] (some 5) none).map (·.changed_at) =
      [1, 10] ∧ 1 < 5 := by
  constructor
  · rfl
  · decide

/-- Claim C3: for a scenario carrying created, submitted and locked
timestamps in ascending order (and no withdraw/delete timestamps), the
State-Transition Reconstructor yields exactly 3 transitions with the
milestone status triples, chained (each `previous_status` equals the prior
`new_status`: null→draft, draft→submitted, submitted→locked), sorted
ascending by timestamp. -/
theorem state_transition_reconstructor_chain (s : FcScenario) (t2 t3 : Nat)
    (h2 : s.submitted_at = some t2) (h3 : s.locked_at = some t3)
    (hw : s.withdraw_at = none) (hd : s.delete_at = none)
    (o12 : s.created_at ≤ t2) (o23 : t2 ≤ t3) :
    (extract_scenario_state_changes [s] none none).length = 3 ∧
    (extract_scenario_state_changes [s] none none).map
        (fun r => (r.previous_status, r.new_status)) =
      [(none, "draft"), (some "draft", "submitted"), (some "submitted", "locked")] ∧
    (extract_scenario_state_changes [s] none none).map (·.changed_at) =
      [s.created_at, t2, t3] ∧
    List.Chain' (fun a b => b.previous_status = some a.new_status)
      (extract_scenario_state_changes [s] none none) ∧
    (extract_scenario_state_changes [s] none none).Pairwise
      (fun a b => a.changed_at ≤ b.changed_at) := by
  have hn1 : ¬ (t2 < s.created_at) := Nat.not_lt.mpr o12
  have hn2 : ¬ (t3 < s.created_at) := Nat.not_lt.mpr (Nat.le_trans o12 o23)
  have hn3 : ¬ (t3 < t2) := Nat.not_lt.mpr o23
  have hout : extract_scenario_state_changes [s] none none =
      [⟨s.id, none, "draft", "created", some s.created_by, s.created_at,
          some s.created_req_id, none⟩,
        ⟨s.id, some "draft", "submitted", "submitted", s.submitted_by, t2,
          s.submitted_req_id, none⟩,
        ⟨s.id, some "submitted", "locked", "locked", s.locked_by, t3,
          s.locked_req_id, none⟩] := by
    simp [extract_scenario_state_changes, scenarioQuery, truthyList,
      scenarioTransitionsRaw, h2, h3, hw, hd, sortByKey, insertByKey, hn1, hn2, hn3]
  rw [hout]
  refine ⟨rfl, rfl, rfl, ?_, ?_⟩
  · simp [List.chain'_cons]
  · simp only [List.pairwise_cons, List.mem_cons, List.mem_singleton]
    refine ⟨?_, ?_, ?_⟩
    · rintro b (rfl | rfl | h)
      · exact o12
      · exact Nat.le_trans o12 o23
      · cases h
    · rintro b (rfl | h)
      · exact o23
      · cases h
    · simp

/-- Concrete scenario for the C3 witness: created at 1, submitted at 2,
locked at 3. -/
def exC3 : FcScenario :=
  ⟨2, "locked", "s2", false, 2024, 2026, 1, "bob", 21, 3, "bob", 22,
    some 2, some "bob", some 23, some 3, some "bob", some 24,
    none, none, none, none, none, none⟩

theorem state_transition_reconstructor_chain_witness :
    (extract_scenario_state_changes [exC3] none none).length = 3 ∧
    (extract_scenario_state_changes [exC3] none none).map
        (fun r => (r.previous_status, r.new_status)) =
      [(none, "draft"), (some "draft", "submitted"), (some "submitted", "locked")] ∧
    (extract_scenario_state_changes [exC3] none none).map (·.changed_at) =
      [exC3.created_at, 2, 3] ∧
    List.Chain' (fun a b => b.previous_status = some a.new_status)
      (extract_scenario_state_changes [exC3] none none) ∧
    (extract_scenario_state_changes [exC3] none none).Pairwise
      (fun a b => a.changed_at ≤ b.changed_at) :=
  state_transition_reconstructor_chain exC3 2 3 rfl rfl rfl rfl
    (by decide) (by decide)

/-! Multi-Source Action Extractor
(`extract_user_actions`, `src/etl/extractors/audit_trail.py`) -/

/-- Model of `not since or t >= since`: the per-record cutoff guard. -/
def sinceOk (since : Option Nat) (t : Nat) : Bool :=
  match since with
  | none => true
  | some c => c ≤ t

/-- The `action_details` payload of an action record, one shape per
emitting site. -/
inductive ActionDetails where
  | createScenario (scenario_name : String) (is_starter : Bool)
      (start_year end_year : Nat)
  | updateScenario (status : String)
  | emptyDetails
  | editInput (node_id : Nat) (input_hash : String) (validated : Bool)
  | runForecast (run_status : String) (fail_reason : Option String)
      (duration_seconds : Option Nat)
deriving DecidableEq

/-- One yielded user-action record. -/
structure UserActionRecord where
  user_id : Option String
  scenario_id : Option Nat
  action_timestamp : Nat
  action_type : String
  action_category : String
  target_entity_type : Option String
  target_entity_id : Option Nat
  correlation_id : Option Nat
  success : Bool
  action_details : ActionDetails
deriving DecidableEq

/-- The action-extractor scenario `WHERE` clause for a non-null `since`:
created/updated/submitted/locked at or after the cutoff. -/
def scenarioActionTouched (s : FcScenario) (c : Nat) : Bool :=
  decide (c ≤ s.created_at) || decide (c ≤ s.updated_at) ||
    optGe s.submitted_at c || optGe s.locked_at c

def createAction (s : FcScenario) : UserActionRecord :=
  ⟨some s.created_by, some s.id, s.created_at, "create_scenario", "scenario_mgmt",
    some "scenario", some s.id, some s.created_req_id, true,
    .createScenario s.scenario_display_name s.is_starter
      s.scenario_start_year s.scenario_end_year⟩

def updateAction (s : FcScenario) : UserActionRecord :=
  ⟨some s.updated_by, some s.id, s.updated_at, "update_scenario", "scenario_mgmt",
    some "scenario", some s.id, some s.updated_req_id, true,
    .updateScenario s.status⟩

def submitAction (s : FcScenario) (t : Nat) : UserActionRecord :=
  ⟨s.submitted_by, some s.id, t, "submit_scenario", "scenario_mgmt",
    some "scenario", some s.id, s.submitted_req_id, true, .emptyDetails⟩

/-- The per-scenario loop body of `extract_user_actions`: a create action
(guarded only by the cutoff — `created_at` is non-nullable hence truthy),
an update action only when `updated_at` differs from `created_at` (and
passes the cutoff), and a submit action when `submitted_at` is present. -/
def scenarioActions (s : FcScenario) (since : Option Nat) : List UserActionRecord :=
  (if sinceOk since s.created_at then [createAction s] else [])
  ++ (if s.updated_at != s.created_at && sinceOk since s.updated_at
      then [updateAction s] else [])
  ++ (match s.submitted_at with
      | some t => if sinceOk since t then [submitAction s t] else []
      | none => [])

def nodeDataAction (d : FcScenarioNodeData) : UserActionRecord :=
  ⟨some d.created_by, some d.scenario_id, d.created_at, "edit_input_data",
    "input_data", some "node_data", some d.id, some d.created_req_id, true,
    .editInput d.model_node_id d.input_hash d.input_validated⟩

def runAction (r : FcScenarioRun) : UserActionRecord :=
  ⟨some r.run_by, some r.scenario_id, r.run_at, "run_forecast", "forecast_run",
    some "run", some r.id, some r.run_req_id, r.run_status == "success",
    .runForecast r.run_status
      (if r.run_status == "failed" then r.fail_reason else none)
      (match r.run_complete_at with
        | some t => some (t - r.run_at)
        | none => none)⟩

/-- The `fc_scenario_node_data` query: per-record `created_at >= since`,
optional scenario filter. -/
def nodeDataQuery (since : Option Nat) (scenario_ids : Option (List Nat))
    (tbl : List FcScenarioNodeData) : List FcScenarioNodeData :=
  let t1 := match since with
    | none => tbl
    | some c => tbl.filter (fun d => c ≤ d.created_at)
  if truthyList scenario_ids then
    t1.filter (fun d => (scenario_ids.getD []).contains d.scenario_id)
  else t1

/-- The `fc_scenario_run` query: per-record `run_at >= since`, optional
scenario filter. -/
def runQuery (since : Option Nat) (scenario_ids : Option (List Nat))
    (tbl : List FcScenarioRun) : List FcScenarioRun :=
  let t1 := match since with
    | none => tbl
    | some c => tbl.filter (fun r => c ≤ r.run_at)
  if truthyList scenario_ids then
    t1.filter (fun r => (scenario_ids.getD []).contains r.scenario_id)
  else t1

/-- Model of `extract_user_actions`: scenario-management actions, then input-data
edit actions, then forecast-run actions. The `user_ids` parameter is
accepted but never used by the source. -/
def extract_user_actions (scenarios : List FcScenario)
    (node_data : List FcScenarioNodeData) (runs : List FcScenarioRun)
    (since : Option Nat) (user_ids : Option (List String))
    (scenario_ids : Option (List Nat)) : List UserActionRecord :=
  (scenarioQuery scenarioActionTouched since scenario_ids scenarios).flatMap
    (fun s => scenarioActions s since)
  ++ (nodeDataQuery since scenario_ids node_data).map nodeDataAction
  ++ (runQuery since scenario_ids runs).map runAction

theorem mem_of_mem_scenarioQuery {sel : FcScenario → Nat → Bool}
    {since : Option Nat} {ids : Option (List Nat)} {tbl : List FcScenario}
    {s : FcScenario} (h : s ∈ scenarioQuery sel since ids tbl) : s ∈ tbl := by
  unfold scenarioQuery at h
  cases since with
  | none =>
    by_cases hids : truthyList ids = true
    · simp only [hids, if_true] at h
      exact (List.mem_filter.mp h).1
    · simpa [hids] using h
  | some c =>
    by_cases hids : truthyList ids = true
    · simp only [hids, if_true] at h
      exact (List.mem_filter.mp (List.mem_filter.mp h).1).1
    · simp only [hids, if_false] at h
      exact (List.mem_filter.mp h).1

/-- Claim C10: an `update_scenario` action is never emitted for a scenario
whose `updated_at` equals its `created_at`; the per-scenario update action
appears exactly when `updated_at` differs from `created_at` and passes the
cutoff, and every `update_scenario` record of the whole extractor arises
that way from some source scenario. -/
theorem no_update_action_when_unchanged :
    (∀ (s : FcScenario) (since : Option Nat), s.updated_at = s.created_at →
      (scenarioActions s since).filter
        (fun a => a.action_type == "update_scenario") = []) ∧
    (∀ (s : FcScenario) (since : Option Nat),
      (scenarioActions s since).filter
          (fun a => a.action_type == "update_scenario") =
        if s.updated_at != s.created_at && sinceOk since s.updated_at
        then [updateAction s] else []) ∧
    (∀ (scenarios : List FcScenario) (node_data : List FcScenarioNodeData)
        (runs : List FcScenarioRun) (since : Option Nat)
        (user_ids : Option (List String)) (scenario_ids : Option (List Nat))
        (a : UserActionRecord),
      a ∈ extract_user_actions scenarios node_data runs since user_ids scenario_ids →
      a.action_type = "update_scenario" →
      ∃ s, s ∈ scenarios ∧ a = updateAction s ∧
        s.updated_at ≠ s.created_at ∧ sinceOk since s.updated_at = true) := by
  have hfilter : ∀ (s : FcScenario) (since : Option Nat),
      (scenarioActions s since).filter
          (fun a => a.action_type == "update_scenario") =
        if s.updated_at != s.created_at && sinceOk since s.updated_at
        then [updateAction s] else [] := by
    intro s since
    unfold scenarioActions
    rw [List.filter_append, List.filter_append]
    have hc : (if sinceOk since s.created_at then [createAction s] else []).filter
        (fun a => a.action_type == "update_scenario") = [] := by
      split <;> rfl
    have hs : ((match s.submitted_at with
        | some t => if sinceOk since t then [submitAction s t] else []
        | none => []) : List UserActionRecord).filter
        (fun a => a.action_type == "update_scenario") = [] := by
      cases s.submitted_at with
      | none => rfl
      | some t => dsimp only; split <;> rfl
    have hu : (if s.updated_at != s.created_at && sinceOk since s.updated_at
        then [updateAction s] else []).filter
        (fun a => a.action_type == "update_scenario") =
        if s.updated_at != s.created_at && sinceOk since s.updated_at
        then [updateAction s] else [] := by
      split <;> rfl
    rw [hc, hs, hu, List.nil_append, List.append_nil]
  refine ⟨?_, hfilter, ?_⟩
  · intro s since h
    rw [hfilter s since, if_neg]
    simp [h]
  · intro scenarios node_data runs since user_ids scenario_ids a ha hty
    unfold extract_user_actions at ha
    simp only [List.mem_append] at ha
    rcases ha with (ha | ha) | ha
    · simp only [List.mem_flatMap] at ha
      obtain ⟨s, hsq, hin⟩ := ha
      refine ⟨s, mem_of_mem_scenarioQuery hsq, ?_⟩
      unfold scenarioActions at hin
      simp only [List.mem_append] at hin
      rcases hin with (hin | hin) | hin
      · exfalso
        rcases (by split at hin <;> simp_all :
          a = createAction s ∧ sinceOk since s.created_at = true) with ⟨rfl, _⟩
        simp [createAction] at hty
      · rcases (by split at hin <;> simp_all :
          a = updateAction s ∧
            (s.updated_at != s.created_at && sinceOk since s.updated_at) = true)
          with ⟨rfl, hcond⟩
        rcases Bool.and_eq_true_iff.mp hcond with ⟨hne, hok⟩
        exact ⟨rfl, bne_iff_ne.mp hne, hok⟩
      · exfalso
        cases hsub : s.submitted_at with
        | none => rw [hsub] at hin; cases hin
        | some t =>
          rw [hsub] at hin
          rcases (by split at hin <;> simp_all :
            a = submitAction s t ∧ sinceOk since t = true) with ⟨rfl, _⟩
          simp [submitAction] at hty
    · exfalso
      simp only [List.mem_map] at ha
      obtain ⟨d, _, rfl⟩ := ha
      simp [nodeDataAction] at hty
    · exfalso
      simp only [List.mem_map] at ha
      obtain ⟨r, _, rfl⟩ := ha
      simp [runAction] at hty

/-- Concrete scenario for the C10 witness: `updated_at = created_at = 1`. -/
def exC10 : FcScenario :=
  ⟨3, "draft", "s3", false, 2024, 2026, 1, "carl", 31, 1, "carl", 31,
    none, none, none, none, none, none, none, none, none, none, none, none⟩

theorem no_update_action_when_unchanged_witness :
    (scenarioActions exC10 none).filter
      (fun a => a.action_type == "update_scenario") = [] :=
  no_update_action_when_unchanged.1 exC10 none rfl

/-! Input-Change Sequencer output and Timeline Merger input shapes. -/

/-- One record of `extract_input_change_sequence` (also the merger's
`input_changes` input shape). -/
structure InputChangeRecord where
  scenario_id : Nat
  node_data_id : Nat
  model_node_id : Nat
  changed_at : Nat
  changed_by : String
  input_hash : String
  is_duplicate : Bool
  change_sequence : Nat
  correlation_id : Nat
deriving DecidableEq

/-- A run record as consumed by the Timeline Merger and the Run-Context
Differ. -/
structure RunEvent where
  run_id : Nat
  scenario_id : Nat
  run_by : String
  run_started_at : Nat
  run_ended_at : Option Nat
  run_status : String
  correlation_id : Option Nat
  duration_seconds : Option Nat
  fail_reason : Option String
deriving DecidableEq

/-! Timeline Merger (`reconstruct_user_journey`,
`src/etl/transformers/user_journey.py`) -/

/-- The `event_metadata` payload of a unified journey event. -/
inductive EventMeta where
  | stateChange (transition_type : String) (previous_status : Option String)
      (new_status : String)
  | userAction (action_type : String) (target_entity_type : Option String)
      (target_entity_id : Option String) (success : Bool) (details : ActionDetails)
  | inputChange (node_id : String) (input_hash : String)
      (change_sequence : Nat) (is_duplicate : Bool)
  | runStarted (run_id : String) (run_status : String)
  | runCompleted (run_id : String) (run_status : String)
      (duration_seconds : Option Nat) (fail_reason : Option String)
deriving DecidableEq

/-- One unified timeline event. -/
structure JourneyEvent where
  event_timestamp : Nat
  event_type : String
  event_category : String
  user_id : Option String
  scenario_id : Option Nat
  correlation_id : Option Nat
  event_description : String
  event_metadata : EventMeta
deriving DecidableEq

/-- Python interpolation of a nullable string (`None` prints as "None"). -/
def pyOptStr : Option String → String
  | none => "None"
  | some s => s

def stateChangeEvent (c : StateChangeRecord) : JourneyEvent :=
  ⟨c.changed_at, "state_change", "scenario_mgmt", c.changed_by,
    some c.scenario_id, c.correlation_id,
    "Scenario status changed from " ++ pyOptStr c.previous_status ++ " to "
      ++ c.new_status,
    .stateChange c.transition_type c.previous_status c.new_status⟩

def actionEvent (a : UserActionRecord) : JourneyEvent :=
  ⟨a.action_timestamp, "user_action", a.action_category, a.user_id,
    a.scenario_id, a.correlation_id,
    "User performed: " ++ a.action_type,
    .userAction a.action_type a.target_entity_type
      (a.target_entity_id.map toString) a.success a.action_details⟩

def inputChangeEvent (c : InputChangeRecord) : JourneyEvent :=
  ⟨c.changed_at, "input_change", "input_data", some c.changed_by,
    some c.scenario_id, some c.correlation_id,
    "Modified input for node (sequence " ++ toString c.change_sequence ++ ")",
    .inputChange (toString c.model_node_id) c.input_hash c.change_sequence
      c.is_duplicate⟩

/-- The one or two events contributed by a run: always a start event, and
a completion event only when `run_ended_at` exists. -/
def runEvents (r : RunEvent) : List JourneyEvent :=
  [⟨r.run_started_at, "run_started", "forecast_run", some r.run_by,
      some r.scenario_id, some (r.correlation_id.getD r.run_id),
      "Forecast run started", .runStarted (toString r.run_id) r.run_status⟩]
  ++ (match r.run_ended_at with
      | some t => [⟨t, "run_completed", "forecast_run", some r.run_by,
          some r.scenario_id, some (r.correlation_id.getD r.run_id),
          "Forecast run completed: " ++ r.run_status,
          .runCompleted (toString r.run_id) r.run_status r.duration_seconds
            r.fail_reason⟩]
      | none => [])

/-- The concatenated pre-sort timeline: state changes, then user actions,
then input changes, then run events, in input order. -/
def timelineEvents (state_changes : List StateChangeRecord)
    (user_actions : List UserActionRecord)
    (input_changes : List InputChangeRecord)
    (runs : List RunEvent) : List JourneyEvent :=
  state_changes.map stateChangeEvent ++ user_actions.map actionEvent
    ++ input_changes.map inputChangeEvent ++ runs.flatMap runEvents

/-- Model of `reconstruct_user_journey`: concatenate the four transformed streams,
then stable-sort ascending by `event_timestamp`. -/
def reconstruct_user_journey (state_changes : List StateChangeRecord)
    (user_actions : List UserActionRecord)
    (input_changes : List InputChangeRecord)
    (runs : List RunEvent) : List JourneyEvent :=
  sortByKey (·.event_timestamp)
    (timelineEvents state_changes user_actions input_changes runs)

/-- Claim C4: the merger's output is sorted non-decreasing by
`event_timestamp`; merging four empty streams yields the empty list; and
the sort is stable — events sharing a timestamp keep their relative input
order (the timestamp-filtered subsequence of the output equals that of the
concatenated input). -/
theorem timeline_merger_sorted_stable :
    (∀ (sc : List StateChangeRecord) (ua : List UserActionRecord)
        (ic : List InputChangeRecord) (rs : List RunEvent),
      (reconstruct_user_journey sc ua ic rs).Pairwise
        (fun a b => a.event_timestamp ≤ b.event_timestamp)) ∧
    reconstruct_user_journey [] [] [] [] = [] ∧
    (∀ (sc : List StateChangeRecord) (ua : List UserActionRecord)
        (ic : List InputChangeRecord) (rs : List RunEvent) (t : Nat),
      (reconstruct_user_journey sc ua ic rs).filter
          (fun e => e.event_timestamp == t) =
        (timelineEvents sc ua ic rs).filter
          (fun e => e.event_timestamp == t)) := by
  refine ⟨?_, rfl, ?_⟩
  · intro sc ua ic rs
    exact sortByKey_sorted _ _
  · intro sc ua ic rs t
    exact sortByKey_filter_key _ _ _

/-! Input-Change Sequencer (`extract_input_change_sequence`,
`src/etl/extractors/audit_trail.py`) -/

/-- The record built for one `fc_scenario_node_data` row with its assigned
per-node sequence number (`is_duplicate` is hardcoded `False` in the
source). -/
def mkInputChange (sid : Nat) (r : FcScenarioNodeData) (seq : Nat) :
    InputChangeRecord :=
  ⟨sid, r.id, r.model_node_id, r.created_at, r.created_by, r.input_hash,
    false, seq, r.created_req_id⟩

/-- The sequencing loop: per-node running counters (the `node_sequences`
dict, default 0), each row stamped with its node's incremented counter. -/
def seqAssign (counters : Nat → Nat) (sid : Nat) :
    List FcScenarioNodeData → List InputChangeRecord
  | [] => []
  | r :: rs =>
    mkInputChange sid r (counters r.model_node_id + 1) ::
      seqAssign (fun m => if m = r.model_node_id
        then counters r.model_node_id + 1 else counters m) sid rs

/-- Model of `extract_input_change_sequence`: the scenario's edit rows ordered by
`created_at` (the query's `ORDER BY`), stamped with per-node sequence
numbers in that order. -/
def extract_input_change_sequence (tbl : List FcScenarioNodeData)
    (scenario_id : Nat) : List InputChangeRecord :=
  seqAssign (fun _ => 0) scenario_id
    (sortByKey (·.created_at) (tbl.filter (·.scenario_id == scenario_id)))

theorem seqAssign_filter_map (sid n : Nat) :
    ∀ (rs : List FcScenarioNodeData) (counters : Nat → Nat),
    ((seqAssign counters sid rs).filter
        (fun c => c.model_node_id == n)).map (·.change_sequence) =
      List.range' (counters n + 1)
        (rs.countP (fun r => r.model_node_id == n)) := by
  intro rs
  induction rs with
  | nil => intro counters; simp [seqAssign]
  | cons r rs ih =>
    intro counters
    rw [seqAssign, List.countP_cons]
    by_cases h : r.model_node_id = n
    · rw [List.filter_cons_of_pos (by simpa [mkInputChange] using h),
          List.map_cons, ih]
      subst h
      simp only [if_pos rfl, beq_self_eq_true, if_true, mkInputChange]
      rw [List.range'_succ]
    · rw [List.filter_cons_of_neg (by simpa [mkInputChange] using h), ih]
      have h' : ¬ n = r.model_node_id := fun hn => h hn.symm
      simp [h', h]

theorem seqAssign_map_id (sid : Nat) :
    ∀ (rs : List FcScenarioNodeData) (counters : Nat → Nat),
    (seqAssign counters sid rs).map (·.node_data_id) = rs.map (·.id) := by
  intro rs
  induction rs with
  | nil => intro counters; simp [seqAssign]
  | cons r rs ih => intro counters; simp [seqAssign, mkInputChange, ih]

/-- The C5 concrete pattern: five edit rows of one scenario, nodes
interleaved A,B,A,B,A (A = node 1, B = node 2) at times 1..5. -/
def exC5 : List FcScenarioNodeData :=
  [⟨101, 1, 9, "h1", true, "dora", 1, 41⟩,
    ⟨102, 2, 9, "h2", true, "dora", 2, 42⟩,
    ⟨103, 1, 9, "h3", true, "dora", 3, 43⟩,
    ⟨104, 2, 9, "h4", true, "dora", 4, 44⟩,
    ⟨105, 1, 9, "h5", true, "dora", 5, 45⟩]

/-- Claim C5: on the interleaved pattern A,B,A,B,A the Sequencer assigns
node A sequence numbers 1,2,3 and node B 1,2; in general every node's
`change_sequence` subsequence is exactly 1,2,...,k (strictly increasing
from 1), and the output preserves the source row order (row ids in
creation-time query order). -/
theorem input_change_sequencer_spec :
    ((extract_input_change_sequence exC5 9).map
        (fun c => (c.model_node_id, c.change_sequence)) =
      [(1, 1), (2, 1), (1, 2), (2, 2), (1, 3)]) ∧
    (∀ (tbl : List FcScenarioNodeData) (sid n : Nat),
      ((extract_input_change_sequence tbl sid).filter
          (fun c => c.model_node_id == n)).map (·.change_sequence) =
        List.range' 1
          ((sortByKey (·.created_at) (tbl.filter (·.scenario_id == sid))).countP
            (fun r => r.model_node_id == n))) ∧
    (∀ (tbl : List FcScenarioNodeData) (sid : Nat),
      (extract_input_change_sequence tbl sid).map (·.node_data_id) =
        (sortByKey (·.created_at) (tbl.filter (·.scenario_id == sid))).map
          (·.id)) := by
  refine ⟨by decide, ?_, ?_⟩
  · intro tbl sid n
    exact seqAssign_filter_map sid n _ _
  · intro tbl sid
    exact seqAssign_map_id sid _ _

/-! Run-Context Differ (`identify_run_context_changes`,
`src/etl/transformers/user_journey.py`) -/

/-- The target-run projection of the diff result. -/
structure TargetRunInfo where
  run_id : Nat
  status : String
  started_at : Nat
  fail_reason : Option String
deriving DecidableEq

/-- The previous-successful-run projection of the diff result. -/
structure PrevRunInfo where
  run_id : Nat
  status : String
  started_at : Nat
deriving DecidableEq

/-- One entry of the diff's `changes_detail` list. -/
structure ChangeDetail where
  node_id : Nat
  changed_at : Nat
  changed_by : String
  input_hash : String
deriving DecidableEq

/-- The three return shapes of `identify_run_context_changes`: the
"Target run not found" error dict, the "no previous successful run"
dict, and the full diff dict. -/
inductive RunDiffResult where
  | err (msg : String)
  | noBaseline (target : RunEvent) (msg : String)
  | diff (target : TargetRunInfo) (previous_successful : PrevRunInfo)
      (input_changes_between : Nat) (changed_node_ids : List Nat)
      (time_gap_seconds : Nat) (changes_detail : List ChangeDetail)
deriving DecidableEq

/-- Input changes in the open-closed interval `(prevStart, tgtStart]`. -/
def changesBetween (prevStart tgtStart : Nat)
    (changes : List InputChangeRecord) : List InputChangeRecord :=
  changes.filter (fun c =>
    decide (prevStart < c.changed_at) && decide (c.changed_at ≤ tgtStart))

def changeDetail (c : InputChangeRecord) : ChangeDetail :=
  ⟨c.model_node_id, c.changed_at, c.changed_by, c.input_hash⟩

/-- The diff dict built once target and baseline runs are in hand.
`list(set(...))` for the changed node ids is modelled as deduplication
(the Python set's iteration order is arbitrary). -/
def mkRunDiff (target prev : RunEvent)
    (input_changes : List InputChangeRecord) : RunDiffResult :=
  let between :=
    changesBetween prev.run_started_at target.run_started_at input_changes
  .diff ⟨target.run_id, target.run_status, target.run_started_at,
      target.fail_reason⟩
    ⟨prev.run_id, prev.run_status, prev.run_started_at⟩
    between.length
    (between.map (·.model_node_id)).dedup
    (target.run_started_at - prev.run_started_at)
    (between.map changeDetail)

/-- The backward scan for the latest success strictly before the target
(`for run in reversed(scenario_runs): ... break`), and the two possible
outcomes once the target run was located. -/
def identifyAfterTarget (target : RunEvent) (scenario_runs : List RunEvent)
    (input_changes : List InputChangeRecord) : RunDiffResult :=
  match scenario_runs.reverse.find? (fun r =>
      decide (r.run_started_at < target.run_started_at) &&
        (r.run_status == "success")) with
  | none => .noBaseline target "No previous successful run found"
  | some prev => mkRunDiff target prev input_changes

/-- Model of `identify_run_context_changes`: filter and time-sort the scenario's
runs, locate the target run, then diff against the latest prior success. -/
def identify_run_context_changes (scenario_id target_run_id : Nat)
    (all_runs : List RunEvent) (input_changes : List InputChangeRecord) :
    RunDiffResult :=
  let scenario_runs :=
    sortByKey (·.run_started_at) (all_runs.filter (·.scenario_id == scenario_id))
  match scenario_runs.find? (·.run_id == target_run_id) with
  | none => .err "Target run not found"
  | some target => identifyAfterTarget target scenario_runs input_changes

/-- A `find?` over a list sorted descending by key returns a maximal-key
element among those satisfying the predicate. -/
theorem find_rev_max (key : α → Nat) (p : α → Bool) :
    ∀ (l : List α), l.Pairwise (fun a b => key b ≤ key a) →
    ∀ x, l.find? p = some x → ∀ y ∈ l, p y = true → key y ≤ key x := by
  intro l
  induction l with
  | nil =>
    intro _ x hx
    cases hx
  | cons a l ih =>
    intro hp x hx y hy hpy
    rcases List.pairwise_cons.mp hp with ⟨ha, hl⟩
    by_cases hpa : p a = true
    · rw [List.find?_cons_of_pos _ hpa] at hx
      cases hx
      rcases List.mem_cons.mp hy with rfl | hy
      · exact Nat.le_refl _
      · exact ha y hy
    · rw [List.find?_cons_of_neg _ (by simpa using hpa)] at hx
      rcases List.mem_cons.mp hy with rfl | hy
      · exact absurd hpy hpa
      · exact ih hl x hx y hy hpy

/-- Runs for the C6/C9 examples: success started at 0, failures started at
10 and 20, all of scenario 100; one input change at 15 on node 7. -/
def exRunS : RunEvent := ⟨1, 100, "u", 0, some 5, "success", none, none, none⟩

def exRunF1 : RunEvent :=
  ⟨2, 100, "u", 10, some 12, "failed", none, none, some "boom"⟩

def exRunF2 : RunEvent := ⟨3, 100, "u", 20, none, "failed", none, none, some "boom"⟩

def exChangeX : InputChangeRecord := ⟨100, 201, 7, 15, "u", "hx", false, 1, 61⟩

/-- Claim C6: on the spec's example (success at 0, failures at 10 and 20,
one input change at 15 on node 7) diffing run 3 reports the run started at
0 as previous successful, `changed_node_ids = [7]` and one change between;
in general the baseline of any diff result is a success started strictly
before the target and no qualifying success starts later, the count/detail
come from the open-closed interval `(baseline_start, target_start]`, and a
located target never yields the error dict — absence of a baseline gives
the normal no-baseline dict. -/
theorem run_context_differ_spec :
    (identify_run_context_changes 100 3 [exRunS, exRunF1, exRunF2] [exChangeX] =
      .diff ⟨3, "failed", 20, some "boom"⟩ ⟨1, "success", 0⟩ 1 [7] 20
        [⟨7, 15, "u", "hx"⟩]) ∧
    (∀ (sid tid : Nat) (runs : List RunEvent)
        (changes : List InputChangeRecord) (tgt : TargetRunInfo)
        (prev : PrevRunInfo) (cnt : Nat) (ids : List Nat) (gap : Nat)
        (detail : List ChangeDetail),
      identify_run_context_changes sid tid runs changes =
        .diff tgt prev cnt ids gap detail →
      prev.status = "success" ∧ prev.started_at < tgt.started_at ∧
        (∀ r ∈ runs, r.scenario_id = sid → r.run_status = "success" →
          r.run_started_at < tgt.started_at →
          r.run_started_at ≤ prev.started_at) ∧
        cnt = (changesBetween prev.started_at tgt.started_at changes).length ∧
        detail = (changesBetween prev.started_at tgt.started_at changes).map
          changeDetail ∧
        (∀ n, n ∈ ids ↔
          ∃ c ∈ changesBetween prev.started_at tgt.started_at changes,
            c.model_node_id = n) ∧
        gap = tgt.started_at - prev.started_at) ∧
    (∀ (sid tid : Nat) (runs : List RunEvent)
        (changes : List InputChangeRecord),
      (∃ r ∈ runs, r.scenario_id = sid ∧ r.run_id = tid) →
      ∀ m, identify_run_context_changes sid tid runs changes ≠ .err m) ∧
    (∀ (sid tid : Nat) (runs : List RunEvent)
        (changes : List InputChangeRecord) (tgt : RunEvent) (msg : String),
      identify_run_context_changes sid tid runs changes = .noBaseline tgt msg →
      ∀ r ∈ runs, r.scenario_id = sid → r.run_status = "success" →
        ¬ r.run_started_at < tgt.run_started_at) := by
  refine ⟨by decide, ?_, ?_, ?_⟩
  · intro sid tid runs changes tgt prev cnt ids gap detail h
    simp only [identify_run_context_changes] at h
    cases hfind : (sortByKey (fun r => r.run_started_at)
        (List.filter (fun r => r.scenario_id == sid) runs)).find?
        (fun r => r.run_id == tid) with
    | none => rw [hfind] at h; simp at h
    | some target =>
      rw [hfind] at h
      simp only [identifyAfterTarget] at h
      cases hb : (sortByKey (fun r => r.run_started_at)
          (List.filter (fun r => r.scenario_id == sid) runs)).reverse.find?
          (fun r => decide (r.run_started_at < target.run_started_at) &&
            (r.run_status == "success")) with
      | none => rw [hb] at h; simp at h
      | some prev0 =>
        rw [hb] at h
        simp only [mkRunDiff, RunDiffResult.diff.injEq] at h
        obtain ⟨h1, h2, h3, h4, h5, h6⟩ := h
        subst h1
        subst h2
        have hp := List.find?_some hb
        rw [Bool.and_eq_true_iff] at hp
        obtain ⟨hplt, hpsucc⟩ := hp
        rw [decide_eq_true_eq] at hplt
        rw [beq_iff_eq] at hpsucc
        refine ⟨hpsucc, hplt, ?_, h3.symm, h6.symm, ?_, h5.symm⟩
        · intro r hr hsc hsuc hlt2
          have hsorted := sortByKey_sorted (fun r : RunEvent => r.run_started_at)
            (List.filter (fun r => r.scenario_id == sid) runs)
          have hdesc : ((sortByKey (fun r : RunEvent => r.run_started_at)
              (List.filter (fun r => r.scenario_id == sid) runs)).reverse).Pairwise
              (fun a b => b.run_started_at ≤ a.run_started_at) :=
            List.pairwise_reverse.mpr hsorted
          have hmem : r ∈ (sortByKey (fun r : RunEvent => r.run_started_at)
              (List.filter (fun r => r.scenario_id == sid) runs)).reverse :=
            List.mem_reverse.mpr ((mem_sortByKey _ _ _).mpr
              (List.mem_filter.mpr ⟨hr, by simp [hsc]⟩))
          have hpr : (fun r : RunEvent =>
              decide (r.run_started_at < target.run_started_at) &&
                (r.run_status == "success")) r = true := by
            simp only [Bool.and_eq_true_iff, decide_eq_true_eq, beq_iff_eq]
            exact ⟨hlt2, hsuc⟩
          exact find_rev_max (fun r : RunEvent => r.run_started_at) _ _
            hdesc prev0 hb r hmem hpr
        · intro n
          rw [← h4]
          simp [List.mem_dedup, List.mem_map]
  · rintro sid tid runs changes ⟨r, hr, hsc, hid⟩ m h
    simp only [identify_run_context_changes] at h
    cases hfind : (sortByKey (fun r => r.run_started_at)
        (List.filter (fun r => r.scenario_id == sid) runs)).find?
        (fun r => r.run_id == tid) with
    | none =>
      have hmem : r ∈ sortByKey (fun r : RunEvent => r.run_started_at)
          (List.filter (fun r => r.scenario_id == sid) runs) :=
        (mem_sortByKey _ _ _).mpr (List.mem_filter.mpr ⟨hr, by simp [hsc]⟩)
      have := List.find?_eq_none.mp hfind r hmem
      simp [hid] at this
    | some target =>
      rw [hfind] at h
      simp only [identifyAfterTarget] at h
      cases hb : (sortByKey (fun r => r.run_started_at)
          (List.filter (fun r => r.scenario_id == sid) runs)).reverse.find?
          (fun r => decide (r.run_started_at < target.run_started_at) &&
            (r.run_status == "success")) with
      | none => rw [hb] at h; simp at h
      | some prev0 => rw [hb] at h; simp [mkRunDiff] at h
  · intro sid tid runs changes tgt msg h r hr hsc hsuc
    simp only [identify_run_context_changes] at h
    cases hfind : (sortByKey (fun r => r.run_started_at)
        (List.filter (fun r => r.scenario_id == sid) runs)).find?
        (fun r => r.run_id == tid) with
    | none => rw [hfind] at h; simp at h
    | some target =>
      rw [hfind] at h
      simp only [identifyAfterTarget] at h
      cases hb : (sortByKey (fun r => r.run_started_at)
          (List.filter (fun r => r.scenario_id == sid) runs)).reverse.find?
          (fun r => decide (r.run_started_at < target.run_started_at) &&
            (r.run_status == "success")) with
      | some prev0 => rw [hb] at h; simp [mkRunDiff] at h
      | none =>
        rw [hb] at h
        simp only [RunDiffResult.noBaseline.injEq] at h
        obtain ⟨rfl, -⟩ := h
        have hmem : r ∈ (sortByKey (fun r : RunEvent => r.run_started_at)
            (List.filter (fun r => r.scenario_id == sid) runs)).reverse :=
          List.mem_reverse.mpr ((mem_sortByKey _ _ _).mpr
            (List.mem_filter.mpr ⟨hr, by simp [hsc]⟩))
        have hnp := List.find?_eq_none.mp hb r hmem
        intro hlt
        apply hnp
        simp only [Bool.and_eq_true_iff, decide_eq_true_eq, beq_iff_eq]
        exact ⟨hlt, hsuc⟩

theorem run_context_differ_spec_witness : exRunS.run_started_at ≤ 0 :=
  ((run_context_differ_spec.2.1 100 3 [exRunS, exRunF1, exRunF2] [exChangeX]
      ⟨3, "failed", 20, some "boom"⟩ ⟨1, "success", 0⟩ 1 [7] 20
      [⟨7, 15, "u", "hx"⟩] (by decide)).2.2.1) exRunS (by decide) rfl rfl
    (by decide)

/-- Claim C9: when the target run id matches no run of the given scenario,
the Run-Context Differ returns the "Target run not found" error dict (no
exception is modelled — the function is total). -/
theorem run_differ_target_missing (sid tid : Nat) (runs : List RunEvent)
    (changes : List InputChangeRecord)
    (h : ∀ r ∈ runs, r.scenario_id = sid → r.run_id ≠ tid) :
    identify_run_context_changes sid tid runs changes =
      .err "Target run not found" := by
  have hnone : (sortByKey (fun r : RunEvent => r.run_started_at)
      (List.filter (fun r => r.scenario_id == sid) runs)).find?
      (fun r => r.run_id == tid) = none := by
    rw [List.find?_eq_none]
    intro x hx
    have hx' := (mem_sortByKey _ _ _).mp hx
    obtain ⟨hxr, hxs⟩ := List.mem_filter.mp hx'
    simp only [beq_iff_eq] at hxs ⊢
    simpa using h x hxr hxs
  simp only [identify_run_context_changes]
  rw [hnone]

theorem run_differ_target_missing_witness :
    identify_run_context_changes 100 999 [exRunS, exRunF1, exRunF2] [exChangeX] =
      .err "Target run not found" :=
  run_differ_target_missing 100 999 [exRunS, exRunF1, exRunF2] [exChangeX]
    (by decide)

/-! Incremental Loader (`src/etl/loaders/rca_loaders.py`).

The reporting session is modelled as explicit table contents plus the
autoincrement counter of `dim_user.user_key`; `session.add` + `flush`
appends the row and materializes its key. Fact columns that the loader
fills from keys absent in extractor records (`request_endpoint`,
`http_method`, `request_duration_ms`, `error_message`, `metadata` — all
`.get(...)` misses, hence always `None` here) are omitted. -/

/-- A `dim_user` row. -/
structure DimUserRow where
  user_id : String
  user_key : Nat
  display_name : String
  loaded_at : Nat
deriving DecidableEq

/-- A `dim_scenario` row (only the natural/surrogate key pair is read). -/
structure DimScenarioRow where
  scenario_id : Nat
  scenario_key : Nat
deriving DecidableEq

/-- A `fact_scenario_state_change` row. -/
structure FactStateChangeRow where
  scenario_key : Nat
  scenario_id : Nat
  previous_status : Option String
  new_status : String
  transition_type : String
  changed_by_user_key : Nat
  changed_at : Nat
  correlation_id : Option Nat
  change_reason : Option String
  loaded_at : Nat
deriving DecidableEq

/-- A `fact_user_action` row. -/
structure FactUserActionRow where
  user_key : Nat
  scenario_key : Option Nat
  action_timestamp : Nat
  action_type : String
  action_category : String
  target_entity_type : Option String
  target_entity_id : Option Nat
  correlation_id : Option Nat
  success : Bool
  action_details : ActionDetails
  loaded_at : Nat
deriving DecidableEq

/-- The reporting-session state visible to the two audit-trail loaders. -/
structure ReportingDb where
  dimUsers : List DimUserRow
  dimScenarios : List DimScenarioRow
  factStateChanges : List FactStateChangeRow
  factUserActions : List FactUserActionRow
  nextUserKey : Nat
deriving DecidableEq

/-- A state-change record as consumed by `load_state_changes` (the
extractor's dict with the actor present). -/
structure StateChangeIn where
  scenario_id : Nat
  previous_status : Option String
  new_status : String
  transition_type : String
  changed_by : String
  changed_at : Nat
  correlation_id : Option Nat
  change_reason : Option String
deriving DecidableEq

/-- A user-action record as consumed by `load_user_actions`. -/
structure UserActionIn where
  user_id : String
  scenario_id : Option Nat
  action_timestamp : Nat
  action_type : String
  action_category : String
  target_entity_type : Option String
  target_entity_id : Option Nat
  correlation_id : Option Nat
  success : Bool
  action_details : ActionDetails
deriving DecidableEq

/-- Model of `select(DimUser.user_key).where(DimUser.user_id == uid)`. -/
def lookupUserKey (db : ReportingDb) (uid : String) : Option Nat :=
  (db.dimUsers.find? (·.user_id == uid)).map (·.user_key)

/-- Model of `select(DimScenario.scenario_key).where(DimScenario.scenario_id == sid)`. -/
def lookupScenarioKey (db : ReportingDb) (sid : Nat) : Option Nat :=
  (db.dimScenarios.find? (·.scenario_id == sid)).map (·.scenario_key)

/-- User-key resolution with lazy creation, shared by both loaders: cache
hit, else query, else create the dimension row (natural key doubling as
display name), flush, and cache. The `if not result` guard follows Python
truthiness. Returns the key, the possibly-extended session state, and the
updated cache. -/
def resolveUserCreate (db : ReportingDb) (ucache : List (String × Nat))
    (uid : String) (now : Nat) : Nat × ReportingDb × List (String × Nat) :=
  match ucache.lookup uid with
  | some k => (k, db, ucache)
  | none =>
    let result := lookupUserKey db uid
    if truthyKey result then
      (result.getD 0, db, (uid, result.getD 0) :: ucache)
    else
      (db.nextUserKey,
        { db with
            dimUsers := db.dimUsers ++ [⟨uid, db.nextUserKey, uid, now⟩],
            nextUserKey := db.nextUserKey + 1 },
        (uid, db.nextUserKey) :: ucache)

/-- Scenario-key resolution for `load_state_changes`: cache hit, else
query; an unresolvable (falsy) key means the record is skipped and the
cache is left untouched. -/
def resolveScenarioCached (db : ReportingDb) (scache : List (Nat × Nat))
    (sid : Nat) : Option (Nat × List (Nat × Nat)) :=
  match scache.lookup sid with
  | some k => some (k, scache)
  | none =>
    let result := lookupScenarioKey db sid
    if truthyKey result then some (result.getD 0, (sid, result.getD 0) :: scache)
    else none

/-- Scenario-key resolution for `load_user_actions`: an absent scenario id
or an unresolvable key yields `None` (the fact row is still inserted). -/
def resolveScenarioOpt (db : ReportingDb) (scache : List (Nat × Nat)) :
    Option Nat → Option Nat × List (Nat × Nat)
  | none => (none, scache)
  | some sid =>
    match scache.lookup sid with
    | some k => (some k, scache)
    | none =>
      let result := lookupScenarioKey db sid
      if truthyKey result then
        (some (result.getD 0), (sid, result.getD 0) :: scache)
      else (none, scache)

def mkFactStateChange (skey ukey : Nat) (c : StateChangeIn) (now : Nat) :
    FactStateChangeRow :=
  ⟨skey, c.scenario_id, c.previous_status, c.new_status, c.transition_type,
    ukey, c.changed_at, c.correlation_id, c.change_reason, now⟩

def mkFactUserAction (ukey : Nat) (skey : Option Nat) (a : UserActionIn)
    (now : Nat) : FactUserActionRow :=
  ⟨ukey, skey, a.action_timestamp, a.action_type, a.action_category,
    a.target_entity_type, a.target_entity_id, a.correlation_id, a.success,
    a.action_details, now⟩

/-- The `load_state_changes` loop: resolve the scenario (skip the record
on failure, before any user resolution), resolve/create the user, insert
the fact row, count it. -/
def loadSCGo (db : ReportingDb) (scache : List (Nat × Nat))
    (ucache : List (String × Nat)) (loaded : Nat) (now : Nat) :
    List StateChangeIn → ReportingDb × Nat
  | [] => (db, loaded)
  | c :: cs =>
    match resolveScenarioCached db scache c.scenario_id with
    | none => loadSCGo db scache ucache loaded now cs
    | some sres =>
      let r := resolveUserCreate db ucache c.changed_by now
      loadSCGo
        { r.2.1 with factStateChanges := r.2.1.factStateChanges ++
            [mkFactStateChange sres.1 r.1 c now] }
        sres.2 r.2.2 (loaded + 1) now cs

/-- Model of `load_state_changes`: fresh caches per invocation; returns the final
session state and the loaded-row count (the function's return value). -/
def load_state_changes (db : ReportingDb) (state_changes : List StateChangeIn)
    (now : Nat) : ReportingDb × Nat :=
  loadSCGo db [] [] 0 now state_changes

/-- The `load_user_actions` loop: resolve/create the user first, then the
optional scenario, and always insert the fact row. -/
def loadUAGo (db : ReportingDb) (scache : List (Nat × Nat))
    (ucache : List (String × Nat)) (loaded : Nat) (now : Nat) :
    List UserActionIn → ReportingDb × Nat
  | [] => (db, loaded)
  | a :: rest =>
    let r := resolveUserCreate db ucache a.user_id now
    let sres := resolveScenarioOpt r.2.1 scache a.scenario_id
    loadUAGo
      { r.2.1 with factUserActions := r.2.1.factUserActions ++
          [mkFactUserAction r.1 sres.1 a now] }
      sres.2 r.2.2 (loaded + 1) now rest

/-- Model of `load_user_actions`: fresh caches per invocation. -/
def load_user_actions (db : ReportingDb) (user_actions : List UserActionIn)
    (now : Nat) : ReportingDb × Nat :=
  loadUAGo db [] [] 0 now user_actions

/-- A scenario id resolves iff the dimension table holds a truthy key. -/
def scenarioResolvable (db : ReportingDb) (sid : Nat) : Bool :=
  truthyKey (lookupScenarioKey db sid)

theorem mem_of_lookup_eq_some {α β : Type} [BEq α] [LawfulBEq α]
    {l : List (α × β)} {k : α} {v : β} (h : l.lookup k = some v) : (k, v) ∈ l := by
  induction l with
  | nil => cases h
  | cons p l ih =>
    cases p with
    | mk pk pv =>
      rw [List.lookup] at h
      by_cases hk : (k == pk) = true
      · rw [hk] at h
        simp only [Option.some.injEq] at h
        subst h
        exact List.mem_cons.mpr (Or.inl (by rw [beq_iff_eq.mp hk]))
      · rw [Bool.not_eq_true] at hk
        rw [hk] at h
        exact List.mem_cons_of_mem _ (ih h)

/-- User resolution/creation touches only `dim_user` rows and the key
counter. -/
theorem resolveUserCreate_preserves (db : ReportingDb)
    (ucache : List (String × Nat)) (uid : String) (now : Nat) :
    (resolveUserCreate db ucache uid now).2.1.dimScenarios = db.dimScenarios ∧
    (resolveUserCreate db ucache uid now).2.1.factStateChanges =
      db.factStateChanges ∧
    (resolveUserCreate db ucache uid now).2.1.factUserActions =
      db.factUserActions := by
  cases hm : ucache.lookup uid with
  | some k => simp [resolveUserCreate, hm]
  | none =>
    simp only [resolveUserCreate, hm]
    split <;> simp

/-- Behaviour of one `load_state_changes` invocation over a coherent
scenario cache: the returned count and the fact-row growth both equal the
number of records whose scenario id resolves against the (unchanged)
scenario dimension. -/
theorem loadSCGo_spec (now : Nat) :
    ∀ (cs : List StateChangeIn) (db : ReportingDb) (scache : List (Nat × Nat))
      (ucache : List (String × Nat)) (loaded : Nat),
    (∀ p ∈ scache, lookupScenarioKey db p.1 = some p.2 ∧ p.2 ≠ 0) →
    (loadSCGo db scache ucache loaded now cs).2 =
        loaded + cs.countP (fun c => scenarioResolvable db c.scenario_id) ∧
      (loadSCGo db scache ucache loaded now cs).1.factStateChanges.length =
        db.factStateChanges.length +
          cs.countP (fun c => scenarioResolvable db c.scenario_id) ∧
      (loadSCGo db scache ucache loaded now cs).1.dimScenarios =
        db.dimScenarios := by
  intro cs
  induction cs with
  | nil =>
    intro db scache ucache loaded hcoh
    simp [loadSCGo]
  | cons c cs ih =>
    intro db scache ucache loaded hcoh
    cases hlu : scache.lookup c.scenario_id with
    | some k =>
      have hk := hcoh (c.scenario_id, k) (mem_of_lookup_eq_some hlu)
      have hres : scenarioResolvable db c.scenario_id = true := by
        unfold scenarioResolvable
        rw [hk.1]
        simpa [truthyKey, bne_iff_ne] using hk.2
      simp only [loadSCGo, resolveScenarioCached, hlu]
      obtain ⟨hpres1, hpres2, hpres3⟩ :=
        resolveUserCreate_preserves db ucache c.changed_by now
      set r := resolveUserCreate db ucache c.changed_by now with hr
      set db2 := { r.2.1 with factStateChanges := r.2.1.factStateChanges ++
        [mkFactStateChange k r.1 c now] } with hdb2
      have hdim2 : db2.dimScenarios = db.dimScenarios := hpres1
      have hlen2 : db2.factStateChanges.length = db.factStateChanges.length + 1 := by
        rw [hdb2]
        simp [hpres2]
      have hlook2 : ∀ sid, lookupScenarioKey db2 sid = lookupScenarioKey db sid := by
        intro sid
        unfold lookupScenarioKey
        rw [hdim2]
      have hres2 : ∀ sid, scenarioResolvable db2 sid = scenarioResolvable db sid := by
        intro sid
        unfold scenarioResolvable
        rw [hlook2]
      obtain ⟨ih1, ih2, ih3⟩ := ih db2 scache r.2.2 (loaded + 1)
        (fun p hp => by rw [hlook2]; exact hcoh p hp)
      have hcnt : cs.countP (fun c => scenarioResolvable db2 c.scenario_id) =
          cs.countP (fun c => scenarioResolvable db c.scenario_id) :=
        List.countP_congr (fun a _ => by rw [hres2])
      refine ⟨?_, ?_, ?_⟩
      · rw [ih1, hcnt, List.countP_cons]
        simp only [hres, if_true]
        omega
      · rw [ih2, hlen2, hcnt, List.countP_cons]
        simp only [hres, if_true]
        omega
      · rw [ih3, hdim2]
    | none =>
      by_cases htr : truthyKey (lookupScenarioKey db c.scenario_id) = true
      · have hres : scenarioResolvable db c.scenario_id = true := htr
        obtain ⟨kk, hkk, hkk0⟩ :
            ∃ kk, lookupScenarioKey db c.scenario_id = some kk ∧ kk ≠ 0 := by
          cases hq : lookupScenarioKey db c.scenario_id with
          | none =>
            rw [hq] at htr
            exact absurd htr (by simp [truthyKey])
          | some kk =>
            refine ⟨kk, rfl, ?_⟩
            rw [hq] at htr
            simpa [truthyKey, bne_iff_ne] using htr
        simp only [loadSCGo, resolveScenarioCached, hlu, hkk]
        rw [if_pos (by simpa [truthyKey, bne_iff_ne] using hkk0)]
        obtain ⟨hpres1, hpres2, hpres3⟩ :=
          resolveUserCreate_preserves db ucache c.changed_by now
        set r := resolveUserCreate db ucache c.changed_by now with hr
        set db2 := { r.2.1 with factStateChanges := r.2.1.factStateChanges ++
          [mkFactStateChange ((some kk).getD 0) r.1 c now] } with hdb2
        have hdim2 : db2.dimScenarios = db.dimScenarios := hpres1
        have hlen2 : db2.factStateChanges.length =
            db.factStateChanges.length + 1 := by
          rw [hdb2]
          simp [hpres2]
        have hlook2 : ∀ sid, lookupScenarioKey db2 sid = lookupScenarioKey db sid := by
          intro sid
          unfold lookupScenarioKey
          rw [hdim2]
        have hres2 : ∀ sid, scenarioResolvable db2 sid = scenarioResolvable db sid := by
          intro sid
          unfold scenarioResolvable
          rw [hlook2]
        have hcoh2 : ∀ p ∈ (c.scenario_id, (some kk).getD 0) :: scache,
            lookupScenarioKey db2 p.1 = some p.2 ∧ p.2 ≠ 0 := by
          intro p hp
          rw [hlook2]
          rcases List.mem_cons.mp hp with rfl | hp
          · exact ⟨by simpa using hkk, by simpa using hkk0⟩
          · exact hcoh p hp
        obtain ⟨ih1, ih2, ih3⟩ := ih db2
          ((c.scenario_id, (some kk).getD 0) :: scache) r.2.2 (loaded + 1) hcoh2
        have hcnt : cs.countP (fun c => scenarioResolvable db2 c.scenario_id) =
            cs.countP (fun c => scenarioResolvable db c.scenario_id) :=
          List.countP_congr (fun a _ => by rw [hres2])
        refine ⟨?_, ?_, ?_⟩
        · rw [ih1, hcnt, List.countP_cons]
          simp only [hres, if_true]
          omega
        · rw [ih2, hlen2, hcnt, List.countP_cons]
          simp only [hres, if_true]
          omega
        · rw [ih3, hdim2]
      · have hres : scenarioResolvable db c.scenario_id = false := by
          unfold scenarioResolvable
          cases h : truthyKey (lookupScenarioKey db c.scenario_id) with
          | false => rfl
          | true => exact absurd h htr
        simp only [loadSCGo, resolveScenarioCached, hlu]
        rw [if_neg htr]
        obtain ⟨ih1, ih2, ih3⟩ := ih db scache ucache loaded hcoh
        refine ⟨?_, ?_, ih3⟩ <;> rw [List.countP_cons] <;>
          simp [hres, ih1, ih2]

/-- When no record's scenario resolves, the loader changes nothing at all
and returns the initial count. -/
theorem loadSCGo_skip_all (now : Nat) :
    ∀ (cs : List StateChangeIn) (db : ReportingDb)
      (ucache : List (String × Nat)) (loaded : Nat),
    (∀ c ∈ cs, lookupScenarioKey db c.scenario_id = none) →
    loadSCGo db [] ucache loaded now cs = (db, loaded) := by
  intro cs
  induction cs with
  | nil =>
    intro db ucache loaded _
    rfl
  | cons c cs ih =>
    intro db ucache loaded h
    have hc := h c (List.mem_cons_self _ _)
    simp only [loadSCGo, resolveScenarioCached, hc]
    simp only [List.lookup, truthyKey]
    exact ih db ucache loaded (fun c hc => h c (List.mem_cons_of_mem _ hc))

/-- Claim C2: a batch whose records all reference a scenario id absent
from the scenario dimension persists 0 fact rows and returns a loaded
count of 0 (so all `N` records were skipped: `N - loaded = N`); the same
batch run after the dimension row `(s, k)` exists persists all `N` fact
rows, returns `N`, and skips none. -/
theorem load_state_changes_skip_then_load (db : ReportingDb)
    (changes : List StateChangeIn) (s k now : Nat)
    (hall : ∀ c ∈ changes, c.scenario_id = s)
    (habsent : db.dimScenarios.find? (·.scenario_id == s) = none)
    (hk : k ≠ 0) :
    (load_state_changes db changes now = (db, 0) ∧
      changes.length - (load_state_changes db changes now).2 = changes.length) ∧
    ((load_state_changes
        { db with dimScenarios := db.dimScenarios ++ [⟨s, k⟩] } changes now).2 =
        changes.length ∧
      (load_state_changes
          { db with dimScenarios := db.dimScenarios ++ [⟨s, k⟩] }
          changes now).1.factStateChanges.length =
        db.factStateChanges.length + changes.length ∧
      changes.length - (load_state_changes
        { db with dimScenarios := db.dimScenarios ++ [⟨s, k⟩] } changes now).2 = 0) := by
  have hlook0 : lookupScenarioKey db s = none := by
    unfold lookupScenarioKey
    rw [habsent]
    rfl
  have hskip : load_state_changes db changes now = (db, 0) :=
    loadSCGo_skip_all now changes db [] 0
      (fun c hc => by rw [hall c hc]; exact hlook0)
  have hlook2 : lookupScenarioKey
      { db with dimScenarios := db.dimScenarios ++ [⟨s, k⟩] } s = some k := by
    unfold lookupScenarioKey
    dsimp only
    rw [List.find?_append, habsent]
    simp
  have hresolvable : ∀ c ∈ changes, scenarioResolvable
      { db with dimScenarios := db.dimScenarios ++ [⟨s, k⟩] } c.scenario_id = true := by
    intro c hc
    rw [hall c hc]
    unfold scenarioResolvable
    rw [hlook2]
    simpa [truthyKey, bne_iff_ne] using hk
  obtain ⟨h1, h2, h3⟩ := loadSCGo_spec now changes
    { db with dimScenarios := db.dimScenarios ++ [⟨s, k⟩] } [] [] 0
    (fun p hp => by cases hp)
  have hcnt : changes.countP (fun c => scenarioResolvable
      { db with dimScenarios := db.dimScenarios ++ [⟨s, k⟩] } c.scenario_id) =
      changes.length := List.countP_eq_length.mpr hresolvable
  refine ⟨⟨hskip, by rw [hskip]; simp⟩, ?_, ?_, ?_⟩
  · simp only [load_state_changes]
    rw [h1, hcnt]
    omega
  · simp only [load_state_changes]
    rw [h2, hcnt]
  · simp only [load_state_changes]
    rw [h1, hcnt]
    omega

/-- Concrete data for the C2 witness: ten identical-scenario records
against an empty reporting store, scenario dimension key 1. -/
def exC2Change : StateChangeIn :=
  ⟨50, none, "draft", "created", "erin", 4, some 71, none⟩

def exC2Batch : List StateChangeIn := List.replicate 10 exC2Change

def exEmptyDb : ReportingDb := ⟨[], [], [], [], 1⟩

theorem load_state_changes_skip_then_load_witness :
    (load_state_changes exEmptyDb exC2Batch 99 = (exEmptyDb, 0) ∧
      exC2Batch.length - (load_state_changes exEmptyDb exC2Batch 99).2 =
        exC2Batch.length) ∧
    ((load_state_changes
        { exEmptyDb with dimScenarios := exEmptyDb.dimScenarios ++ [⟨50, 1⟩] }
        exC2Batch 99).2 = exC2Batch.length ∧
      (load_state_changes
          { exEmptyDb with dimScenarios := exEmptyDb.dimScenarios ++ [⟨50, 1⟩] }
          exC2Batch 99).1.factStateChanges.length =
        exEmptyDb.factStateChanges.length + exC2Batch.length ∧
      exC2Batch.length - (load_state_changes
        { exEmptyDb with dimScenarios := exEmptyDb.dimScenarios ++ [⟨50, 1⟩] }
        exC2Batch 99).2 = 0) :=
  load_state_changes_skip_then_load exEmptyDb exC2Batch 50 1 99
    (by decide) (by decide) (by decide)

/-- Claim C8: within one `load_user_actions` invocation, resolving the
same unknown user id twice returns the same surrogate key both times
(both fact rows carry `db.nextUserKey`), exactly one dimension row is
created (on the first resolution), and the second resolution creates
nothing (the key counter advances exactly once). -/
theorem user_dim_resolver_idempotent (db : ReportingDb) (a1 a2 : UserActionIn)
    (u : String) (now : Nat) (h1 : a1.user_id = u) (h2 : a2.user_id = u)
    (habsent : db.dimUsers.find? (·.user_id == u) = none) :
    (load_user_actions db [a1, a2] now).1.dimUsers =
      db.dimUsers ++ [⟨u, db.nextUserKey, u, now⟩] ∧
    (load_user_actions db [a1, a2] now).1.nextUserKey = db.nextUserKey + 1 ∧
    (load_user_actions db [a1, a2] now).2 = 2 ∧
    ∃ skey1 skey2,
      (load_user_actions db [a1, a2] now).1.factUserActions =
        db.factUserActions ++
          [mkFactUserAction db.nextUserKey skey1 a1 now,
            mkFactUserAction db.nextUserKey skey2 a2 now] := by
  subst h1
  have hlk : lookupUserKey db a1.user_id = none := by
    unfold lookupUserKey
    rw [habsent]
    rfl
  have hstep1 : resolveUserCreate db [] a1.user_id now =
      (db.nextUserKey,
        { db with
            dimUsers := db.dimUsers ++
              [⟨a1.user_id, db.nextUserKey, a1.user_id, now⟩],
            nextUserKey := db.nextUserKey + 1 },
        [(a1.user_id, db.nextUserKey)]) := by
    simp [resolveUserCreate, List.lookup, hlk, truthyKey]
  have hstep2 : ∀ db' : ReportingDb,
      resolveUserCreate db' [(a1.user_id, db.nextUserKey)] a2.user_id now =
        (db.nextUserKey, db', [(a1.user_id, db.nextUserKey)]) := by
    intro db'
    simp [resolveUserCreate, List.lookup, h2]
  simp only [load_user_actions, loadUAGo, hstep1, hstep2]
  refine ⟨trivial, trivial, trivial, ?_⟩
  exact ⟨_, _, List.append_assoc _ _ _⟩

/-- Concrete inputs for the C8 witness. -/
def exA1 : UserActionIn :=
  ⟨"u", none, 3, "create_scenario", "scenario_mgmt", some "scenario",
    some 50, some 81, true, .emptyDetails⟩

def exA2 : UserActionIn :=
  ⟨"u", none, 4, "submit_scenario", "scenario_mgmt", some "scenario",
    some 50, some 82, true, .emptyDetails⟩

theorem user_dim_resolver_idempotent_witness :
    (load_user_actions exEmptyDb [exA1, exA2] 7).1.dimUsers =
      exEmptyDb.dimUsers ++ [⟨"u", exEmptyDb.nextUserKey, "u", 7⟩] ∧
    (load_user_actions exEmptyDb [exA1, exA2] 7).1.nextUserKey =
      exEmptyDb.nextUserKey + 1 ∧
    (load_user_actions exEmptyDb [exA1, exA2] 7).2 = 2 ∧
    ∃ skey1 skey2,
      (load_user_actions exEmptyDb [exA1, exA2] 7).1.factUserActions =
        exEmptyDb.factUserActions ++
          [mkFactUserAction exEmptyDb.nextUserKey skey1 exA1 7,
            mkFactUserAction exEmptyDb.nextUserKey skey2 exA2 7] :=
  user_dim_resolver_idempotent exEmptyDb exA1 exA2 "u" 7 rfl rfl rfl

/-! Watermark Store (`update_watermark`, `src/etl/state.py`). -/

/-- A row of `rpt.etl_watermark`. -/
structure WatermarkRow where
  table_name : String
  last_loaded_at : Nat
  last_run_started : Nat
  last_run_completed : Nat
  row_count_loaded : Nat
  status : String
deriving DecidableEq

/-- Model of `update_watermark`: `INSERT ... ON CONFLICT (table_name) DO UPDATE`.
On conflict the update list sets `last_loaded_at`, `last_run_completed`,
accumulates `row_count_loaded` and sets `status`; it does NOT touch
`last_run_started`. A fresh insert carries `now` for both run timestamps. -/
def update_watermark (tbl : List WatermarkRow) (table_name : String)
    (last_loaded_at : Nat) (row_count : Nat) (st : String) (now : Nat) :
    List WatermarkRow :=
  if tbl.any (·.table_name == table_name) then
    tbl.map (fun r => if r.table_name == table_name then
      { r with
          last_loaded_at := last_loaded_at,
          last_run_completed := now,
          row_count_loaded := r.row_count_loaded + row_count,
          status := st }
      else r)
  else tbl ++ [⟨table_name, last_loaded_at, now, now, row_count, st⟩]

theorem find?_map_update {α : Type} {p : α → Bool} {g : α → α}
    (hg : ∀ x, p x = true → p (g x) = true) :
    ∀ (l : List α) (r : α), l.find? p = some r →
      (l.map (fun x => if p x then g x else x)).find? p = some (g r) := by
  intro l
  induction l with
  | nil =>
    intro r h
    cases h
  | cons a l ih =>
    intro r h
    by_cases hpa : p a = true
    · rw [List.find?_cons_of_pos _ hpa] at h
      injection h with h
      subst h
      rw [List.map_cons, if_pos hpa, List.find?_cons_of_pos _ (hg a hpa)]
    · rw [List.find?_cons_of_neg _ (by simpa using hpa)] at h
      rw [List.map_cons, if_neg hpa, List.find?_cons_of_neg _ (by simpa using hpa)]
      exact ih r h

/-- An existing watermark row: started 5, completed 2, 7 rows, success. -/
def exWmRow : WatermarkRow := ⟨"rca_audit_trail", 1, 5, 2, 7, "success"⟩

/-- Claim C7 counterexample: upserting over an existing row (prior
`last_run_started = 5`) with the new run at `now = 100` accumulates the
row count (7+3=10) and overwrites `last_loaded_at`, `last_run_completed`
and `status`, but `last_run_started` stays 5 — it is NOT overwritten with
the new run's value, contradicting the claim. -/
theorem update_watermark_keeps_run_started :
    update_watermark [exWmRow] "rca_audit_trail" 50 3 "success" 100 =
      [⟨"rca_audit_trail", 50, 5, 100, 10, "success"⟩] ∧
    (update_watermark [exWmRow] "rca_audit_trail" 50 3 "success" 100).map
      (·.last_run_started) = [5] ∧ (5 : Nat) ≠ 100 := by
  refine ⟨by decide, by decide, by decide⟩

/-- Claim C7 (amended): for a `table_name` that already has a watermark
row, the upsert accumulates `row_count_loaded` (prior value plus the new
count) and overwrites `last_loaded_at`, `last_run_completed` and
`status` with the new run's values, while `last_run_started` retains its
prior value (it is only written on insert / by `mark_run_started`). -/
theorem update_watermark_upsert (tbl : List WatermarkRow) (tn : String)
    (lla rcl : Nat) (st : String) (now : Nat) (r : WatermarkRow)
    (hfind : tbl.find? (·.table_name == tn) = some r) :
    ∃ r', (update_watermark tbl tn lla rcl st now).find?
        (·.table_name == tn) = some r' ∧
      r'.row_count_loaded = r.row_count_loaded + rcl ∧
      r'.last_loaded_at = lla ∧
      r'.last_run_completed = now ∧
      r'.status = st ∧
      r'.last_run_started = r.last_run_started := by
  have hpr := List.find?_some hfind
  have hany : tbl.any (·.table_name == tn) = true :=
    List.any_eq_true.mpr ⟨r, List.mem_of_find?_eq_some hfind, hpr⟩
  unfold update_watermark
  rw [if_pos hany]
  refine ⟨_, find?_map_update ?_ tbl r hfind, rfl, rfl, rfl, rfl, rfl⟩
  intro x hx
  simpa using hx

theorem update_watermark_upsert_witness :
    ∃ r', (update_watermark [exWmRow] "rca_audit_trail" 50 3 "failed" 100).find?
        (·.table_name == "rca_audit_trail") = some r' ∧
      r'.row_count_loaded = exWmRow.row_count_loaded + 3 ∧
      r'.last_loaded_at = 50 ∧
      r'.last_run_completed = 100 ∧
      r'.status = "failed" ∧
      r'.last_run_started = exWmRow.last_run_started :=
  update_watermark_upsert [exWmRow] "rca_audit_trail" 50 3 "failed" 100
    exWmRow rfl

end RcaEtl
